/-
Verification of the Instacart Sales EDA dashboard pipeline
(src/streamlit_app.py) against its specification.

The script is embedded shallowly:
  * a dataframe row is an association list from column names to string
    values; a missing key models a NaN / absent cell;
  * `pd.read_csv` results are `CsvData` values (columns plus rows);
  * the `data/` directory is `Option (List FileEntry)` (`none` models a
    nonexistent folder, a `FileEntry` whose payload is `none` models a
    file whose read raises);
  * `st.error` + `st.stop` is `Except.error`;
  * pandas operations used by the script (`isin` filtering, `nunique`,
    `dropna().unique()`, `value_counts().head(k)`, `groupby(...).size()`,
    column projection `df[cols]`) are translated one by one below.
-/
import Mathlib

/-- A dataframe row: association list from column name to cell value.
A column absent from the list models a NaN cell in that row. -/
abbrev Row : Type := List (String × String)

/-- The value of column `c` in row `r` (`none` = NaN). -/
def cell (r : Row) (c : String) : Option String :=
  r.lookup c

/-- The non-null values of column `c`, in row order
(pandas `df[c].dropna()`). -/
def colVals (t : List Row) (c : String) : List String :=
  t.filterMap (fun r => cell r c)

/-- Deduplication keeping each value's FIRST occurrence, in input order
(Mathlib's `List.dedup` keeps last occurrences, which is the wrong order
for pandas `unique()`). -/
def firstDedup {α : Type _} [DecidableEq α] : List α → List α
  | [] => []
  | a :: l => a :: (firstDedup l).filter (fun b => b ≠ a)

/-- `df[c].dropna().unique()`: distinct non-null values of column `c`
in order of first occurrence. -/
def distinctVals (t : List Row) (c : String) : List String :=
  firstDedup (colVals t c)

/-- `df[c].nunique()`: number of distinct non-null values of column `c`. -/
def nunique (t : List Row) (c : String) : Nat :=
  (distinctVals t c).length

/-- `df[c].isin(L)` evaluated at one row: NaN cells are never members. -/
def isinSel (r : Row) (c : String) (L : List String) : Bool :=
  match cell r c with
  | some v => L.contains v
  | none => false

/-- One sidebar filter step, e.g. lines 81-82 of streamlit_app.py:
`if departments: df = df[df["department"].isin(departments)]`.
An empty selection list leaves the table unchanged. -/
def filterByCol (t : List Row) (c : String) (L : List String) : List Row :=
  if L.isEmpty then t else t.filter (fun r => isinSel r c L)

/-- The three multiselect states of the sidebar (lines 77-96). -/
structure Selections where
  departments : List String
  aisles : List String
  products : List String
deriving DecidableEq, Repr

/-- `df` after the department filter (lines 77-82). -/
def dfAfterDept (t : List Row) (s : Selections) : List Row :=
  filterByCol t "department" s.departments

/-- Options offered by the aisle multiselect (line 86): computed from the
table already narrowed by the department selection. -/
def aisleOpts (t : List Row) (s : Selections) : List String :=
  distinctVals (dfAfterDept t s) "aisle"

/-- `df` after the department and aisle filters (lines 84-89). -/
def dfAfterAisle (t : List Row) (s : Selections) : List Row :=
  filterByCol (dfAfterDept t s) "aisle" s.aisles

/-- Options offered by the product multiselect (line 93): computed from the
table narrowed by the department and aisle selections. -/
def productOpts (t : List Row) (s : Selections) : List String :=
  distinctVals (dfAfterAisle t s) "product_name"

/-- `df` after all three sidebar filters (lines 77-96). -/
def dfAfterProduct (t : List Row) (s : Selections) : List Row :=
  filterByCol (dfAfterAisle t s) "product_name" s.products

/-- One parsed CSV file (`pd.read_csv` output): its column list and rows. -/
structure CsvData where
  cols : List String
  rows : List Row
deriving DecidableEq, Repr

/-- A directory entry: a file name together with its parse result
(`none` models a file whose read raises an exception). -/
structure FileEntry where
  name : String
  content : Option CsvData
deriving DecidableEq, Repr

/-- The `data/` directory; `none` models a nonexistent folder. -/
abbrev DataDir := Option (List FileEntry)

/-- Python `s.endswith('.csv')`, as a suffix test on the character data. -/
def endsWithCsv (s : String) : Bool :=
  ".csv".data.isSuffixOf s.data

/-- Line 25: `files = [f for f in os.listdir(data_folder) if
f.endswith('.csv')]`. -/
def csvFilesOf (es : List FileEntry) : List FileEntry :=
  es.filter (fun f => endsWithCsv f.name)

/-- The read loop of lines 36-40: read each file in order; the first read
that raises aborts the whole load (caught at line 47). -/
def readAll : List FileEntry → Except String (List CsvData)
  | [] => .ok []
  | f :: fs =>
    match f.content with
    | none => .error "Error loading data"
    | some d => (readAll fs).map (d :: ·)

/-- Line 43: `pd.concat(dfs, ignore_index=True)` — rows are concatenated
in file order keeping each file's own order; the column set is the union
of the files' columns in order of first appearance. -/
def concatCsv (dfs : List CsvData) : CsvData :=
  ⟨firstDedup ((dfs.map (fun d => d.cols)).flatten),
    (dfs.map (fun d => d.rows)).flatten⟩

/-- `load_data` (lines 17-50): error out when the folder is missing or
holds no `.csv` file; otherwise read every CSV and concatenate. -/
def load_data (d : DataDir) : Except String CsvData :=
  match d with
  | none => .error "Data folder not found"
  | some es =>
    let files := csvFilesOf es
    if files.isEmpty then .error "No CSV files found"
    else (readAll files).map concatCsv

/-- Line 67: `df.groupby("order_id")["product_name"].count().mean()` —
for each distinct non-null order_id, the number of rows of that order
with a non-null product_name, averaged over the orders (`none` models the
NaN mean of an empty grouping). -/
def avgProductsPerOrder (t : List Row) : Option ℚ :=
  let keys := distinctVals t "order_id"
  if keys.isEmpty then none
  else some (((keys.map (fun k =>
    ((t.filter (fun r => cell r "order_id" == some k)).filterMap
      (fun r => cell r "product_name")).length)).sum : ℚ) /
    (keys.length : ℚ))

/-- Line 254: `df['order_id'].nunique() / df['user_id'].nunique()`.
A zero unique-user count raises ZeroDivisionError, modelled as `none`. -/
def avg_order_per_customer (t : List Row) : Option ℚ :=
  if nunique t "user_id" = 0 then none
  else some ((nunique t "order_id" : ℚ) / (nunique t "user_id" : ℚ))

/-- The scalar outputs of one script run, with the row-set each was
computed from recorded by `filteredRows`. -/
structure ScriptOut where
  totalOrders : Nat
  totalUsers : Nat
  uniqueProducts : Nat
  avgPerOrder : Option ℚ
  ordersPerUser : Option ℚ
  filteredRows : List Row

/-- The module-level dataflow of streamlit_app.py in statement order:
the Key Metrics block (lines 61-68) runs on the loaded table, then the
sidebar filters (lines 77-96) rebind `df`, then `avg_order_per_customer`
(line 254) runs on the filtered table. -/
def runScript (t : List Row) (s : Selections) : ScriptOut :=
  let totalOrders := nunique t "order_id"
  let totalUsers := nunique t "user_id"
  let uniqueProducts := nunique t "product_name"
  let avgPerOrder := avgProductsPerOrder t
  let t₁ := filterByCol t "department" s.departments
  let t₂ := filterByCol t₁ "aisle" s.aisles
  let t₃ := filterByCol t₂ "product_name" s.products
  ⟨totalOrders, totalUsers, uniqueProducts, avgPerOrder,
    avg_order_per_customer t₃, t₃⟩

/-- The order pandas `value_counts` lists entries in: strictly larger
count first, ties in first-occurrence order. An entry is
(value, count, first-occurrence position). -/
def vcRel (a b : String × Nat × Nat) : Prop :=
  b.2.1 < a.2.1 ∨ (a.2.1 = b.2.1 ∧ a.2.2 ≤ b.2.2)

instance : DecidableRel vcRel := fun a b =>
  inferInstanceAs (Decidable (b.2.1 < a.2.1 ∨ (a.2.1 = b.2.1 ∧ a.2.2 ≤ b.2.2)))

instance : IsTotal (String × Nat × Nat) vcRel where
  total a b := by
    rcases Nat.lt_trichotomy a.2.1 b.2.1 with h | h | h
    · exact Or.inr (Or.inl h)
    · rcases Nat.le_total a.2.2 b.2.2 with h₂ | h₂
      · exact Or.inl (Or.inr ⟨h, h₂⟩)
      · exact Or.inr (Or.inr ⟨h.symm, h₂⟩)
    · exact Or.inl (Or.inl h)

instance : IsTrans (String × Nat × Nat) vcRel where
  trans a b c hab hbc := by
    rcases hab with h | ⟨he, hi⟩
    · rcases hbc with h' | ⟨he', hi'⟩
      · exact Or.inl (h'.trans h)
      · exact Or.inl (he' ▸ h)
    · rcases hbc with h' | ⟨he', hi'⟩
      · exact Or.inl (he ▸ h')
      · exact Or.inr ⟨he.trans he', hi.trans hi'⟩

/-- The tagged count table behind `value_counts`: each distinct non-null
value of column `c` with its frequency and the position of its first
occurrence among the column's non-null values. -/
def vcEntries (t : List Row) (c : String) : List (String × Nat × Nat) :=
  (distinctVals t c).map (fun v =>
    (v, (colVals t c).count v, (colVals t c).indexOf v))

/-- `df[c].value_counts()` (lines 135, 258): frequencies of the distinct
non-null values, largest first, ties kept in first-occurrence order. -/
def value_counts (t : List Row) (c : String) : List (String × Nat) :=
  (List.insertionSort vcRel (vcEntries t c)).map (fun e => (e.1, e.2.1))

/-- `df[c].value_counts().head(k)`, the top-K frequency query. -/
def topFreq (t : List Row) (c : String) (k : Nat) : List (String × Nat) :=
  (value_counts t c).take k

/-- Line 135: `df["product_name"].value_counts().head(10)`. -/
def top_products (t : List Row) : List (String × Nat) :=
  topFreq t "product_name" 10

/-- Line 258: `df["user_id"].value_counts().head(10)`. -/
def top_users (t : List Row) : List (String × Nat) :=
  topFreq t "user_id" 10

/-- The file names the read loop touches, in order: every CSV file up to
and including the first whose read raises (lines 36-40). -/
def readNames : List FileEntry → List String
  | [] => []
  | f :: fs =>
    match f.content with
    | none => [f.name]
    | some _ => f.name :: readNames fs

/-- The file reads one `load_data` call performs: nothing when the folder
is missing or holds no CSV file, otherwise the read loop's trace. -/
def loadReads (d : DataDir) : List String :=
  match d with
  | none => []
  | some es =>
    let files := csvFilesOf es
    if files.isEmpty then [] else readNames files

/-- A session of n user interactions. Streamlit reruns the whole script
on each interaction, and `load_data` carries no cache decorator, so line
53 calls it afresh every time; the session trace is the concatenation of
the per-interaction read traces. -/
def sessionReads (d : DataDir) : Nat → List String
  | 0 => []
  | n + 1 => sessionReads d n ++ loadReads d

/-- Lines 278-281: the fixed column list of the orders table. -/
def table_cols : List String :=
  ["user_id", "order_id", "add_to_cart_order", "reordered", "order_number",
   "days_since_prior_order", "product_name", "Day", "order_hour_of_day"]

/-- `df[cs]` column projection: raises a KeyError when any requested
column is absent from the table. -/
def selectCols (T : CsvData) (cs : List String) : Except String CsvData :=
  if cs.all (fun c => T.cols.contains c) then
    .ok ⟨cs, T.rows.map (fun r => cs.filterMap (fun c =>
      (cell r c).map (fun v => (c, v))))⟩
  else .error "KeyError"

/-- Line 282: `table_data = df[table_cols]` — unconditional access to all
nine columns. -/
def tableData (T : CsvData) : Except String CsvData :=
  selectCols T table_cols

/-- `df.groupby(c).size()` with keys in ascending order. -/
def groupSizes (T : CsvData) (c : String) : List (String × Nat) :=
  List.insertionSort (fun a b => a.1 ≤ b.1)
    ((distinctVals T.rows c).map (fun v => (v, (colVals T.rows c).count v)))

/-- Lines 107-114: the day-of-week chart, guarded by
`if "Day" in df.columns` and silently skipped otherwise. -/
def dayChart (T : CsvData) : Option (List (String × Nat)) :=
  if T.cols.contains "Day" then some (groupSizes T "Day") else none

/-- Lines 117-124: the hour-of-day chart, guarded by
`if "order_hour_of_day" in df.columns`. -/
def hourChart (T : CsvData) : Option (List (String × Nat)) :=
  if T.cols.contains "order_hour_of_day" then
    some (groupSizes T "order_hour_of_day")
  else none

/-- A concrete data directory used to instantiate the loader theorems:
two readable CSV files and one non-CSV file. -/
def egDir : List FileEntry :=
  [⟨"orders.csv", some ⟨["order_id", "user_id"],
      [[("order_id", "1"), ("user_id", "7")],
       [("order_id", "2"), ("user_id", "7")]]⟩⟩,
   ⟨"products.csv", some ⟨["product_name"], [[("product_name", "Milk")]]⟩⟩,
   ⟨"readme.txt", none⟩]

/-- A two-row table spanning two departments, two users, two orders. -/
def egRows : List Row :=
  [[("order_id", "1"), ("user_id", "1"), ("product_name", "Milk"),
    ("department", "dairy"), ("aisle", "milk")],
   [("order_id", "2"), ("user_id", "2"), ("product_name", "Apple"),
    ("department", "produce"), ("aisle", "fresh fruits")]]

/-- A selection keeping only the dairy department. -/
def egSel : Selections := ⟨["dairy"], [], []⟩

/-- A table whose product-name column has a genuine tie: Milk and Bread
both occur twice, Milk first-occurring earlier but last-occurring later,
so first- and last-occurrence tie orders disagree. -/
def egFreqRows : List Row :=
  [[("product_name", "Milk")], [("product_name", "Bread")],
   [("product_name", "Bread")], [("product_name", "Milk")]]

/-- A loaded table with every orders-table column except `Day` and
`order_hour_of_day`. -/
def egNoDayTable : CsvData :=
  ⟨["user_id", "order_id", "add_to_cart_order", "reordered",
    "order_number", "days_since_prior_order", "product_name"],
   [[("user_id", "1"), ("order_id", "1"), ("add_to_cart_order", "1"),
     ("reordered", "0"), ("order_number", "1"),
     ("days_since_prior_order", "3"), ("product_name", "Milk")]]⟩

/-- `firstDedup` keeps exactly the values of the input list. -/
theorem mem_firstDedup {α : Type _} [DecidableEq α] (v : α) (l : List α) :
    v ∈ firstDedup l ↔ v ∈ l := by
  induction l with
  | nil => simp [firstDedup]
  | cons a l ih =>
    simp only [firstDedup, List.mem_cons, List.mem_filter, ih]
    by_cases h : v = a <;> simp [h]

/-- `firstDedup` lists values in strictly increasing order of their first
occurrence in the input, substantiating the order `distinctVals` keeps. -/
theorem firstDedup_pairwise_indexOf {α : Type _} [DecidableEq α]
    (l : List α) :
    (firstDedup l).Pairwise (fun u v => l.indexOf u < l.indexOf v) := by
  induction l with
  | nil => simp [firstDedup]
  | cons a l ih =>
    rw [firstDedup]
    refine List.Pairwise.cons ?_ ?_
    · intro v hv
      have hne : v ≠ a := by simpa using (List.mem_filter.mp hv).2
      rw [List.indexOf_cons_self, List.indexOf_cons_ne _ (Ne.symm hne)]
      exact Nat.succ_pos _
    · refine List.Pairwise.imp_of_mem ?_
        (ih.sublist (List.filter_sublist _))
      intro u v hu hv huv
      have hu' : u ≠ a := by simpa using (List.mem_filter.mp hu).2
      have hv' : v ≠ a := by simpa using (List.mem_filter.mp hv).2
      rw [List.indexOf_cons_ne _ (Ne.symm hu'),
        List.indexOf_cons_ne _ (Ne.symm hv')]
      exact Nat.succ_lt_succ huv

/-- C1: filtering by a non-empty selection list on a column keeps exactly
the rows whose value in that column is a member of the list (a sublist of
the input, hence no longer); an empty selection list is a no-op. -/
theorem filterByCol_spec (t : List Row) (c : String) (L : List String) :
    (filterByCol t c L =
      if L = [] then t else t.filter (fun r => isinSel r c L)) ∧
    (∀ r, r ∈ filterByCol t c L ↔ r ∈ t ∧ (L = [] ∨ isinSel r c L = true)) ∧
    (filterByCol t c L).Sublist t ∧
    (filterByCol t c L).length ≤ t.length := by
  rcases L with _ | ⟨a, L⟩
  · simp [filterByCol]
  · have hne : ((a :: L).isEmpty = true) = False := by simp
    simp only [filterByCol, hne, if_false]
    refine ⟨by simp, ?_, List.filter_sublist t, List.length_filter_le _ t⟩
    intro r
    simp [List.mem_filter]

/-- Normal form of one filter step: a single `List.filter` whose predicate
is vacuously true when the selection list is empty. -/
theorem filterByCol_eq_filter (t : List Row) (c : String) (L : List String) :
    filterByCol t c L = t.filter (fun r => L.isEmpty || isinSel r c L) := by
  rcases L with _ | ⟨a, L⟩
  · simp [filterByCol, List.filter_true]
  · simp [filterByCol]

/-- C5: filters on two columns commute, and their sequential application
equals the intersection of the two single-column filter results taken on
the original row-set. -/
theorem filterByCol_comm_inter (t : List Row) (c₁ c₂ : String)
    (L₁ L₂ : List String) :
    filterByCol (filterByCol t c₁ L₁) c₂ L₂ =
      filterByCol (filterByCol t c₂ L₂) c₁ L₁ ∧
    filterByCol (filterByCol t c₁ L₁) c₂ L₂ =
      (filterByCol t c₁ L₁) ∩ (filterByCol t c₂ L₂) := by
  simp only [filterByCol_eq_filter, List.filter_filter]
  constructor
  · exact List.filter_congr (fun r _ => by rw [Bool.and_comm])
  · rw [List.inter_def, List.filter_filter]
    refine (List.filter_congr (fun r hr => ?_)).symm
    have hmem : r ∈ t := hr
    by_cases h : r ∈ t.filter (fun r => L₂.isEmpty || isinSel r c₂ L₂)
    · rw [List.elem_eq_true_of_mem h, (List.mem_filter.mp h).2]
    · have h₂ : (L₂.isEmpty || isinSel r c₂ L₂) = false :=
        Bool.eq_false_iff.mpr fun hc => h (List.mem_filter.mpr ⟨hmem, hc⟩)
      have he : List.elem r (t.filter (fun r => L₂.isEmpty || isinSel r c₂ L₂))
          = false :=
        Bool.eq_false_iff.mpr fun hc => h (List.elem_iff.mp hc)
      rw [h₂, he]

/-- C9: the aisle multiselect offers exactly the distinct non-null aisle
values of the table already narrowed by the department selection, and the
product multiselect offers exactly the distinct non-null product names of
the table narrowed by both earlier selections; a value absent from the
narrowed table is never offered. -/
theorem sidebar_opts_cascade (t : List Row) (s : Selections) :
    (aisleOpts t s = distinctVals (dfAfterDept t s) "aisle") ∧
    (∀ v, v ∈ aisleOpts t s ↔
      ∃ r ∈ dfAfterDept t s, cell r "aisle" = some v) ∧
    (productOpts t s = distinctVals (dfAfterAisle t s) "product_name") ∧
    (∀ v, v ∈ productOpts t s ↔
      ∃ r ∈ dfAfterAisle t s, cell r "product_name" = some v) := by
  refine ⟨rfl, fun v => ?_, rfl, fun v => ?_⟩
  · simp [aisleOpts, distinctVals, colVals, mem_firstDedup,
      List.mem_filterMap]
  · simp [productOpts, distinctVals, colVals, mem_firstDedup,
      List.mem_filterMap]

/-- The read loop succeeds exactly when every file's read succeeds. -/
theorem readAll_ok_iff (fs : List FileEntry) :
    (∃ ds, readAll fs = .ok ds) ↔ ∀ f ∈ fs, f.content.isSome := by
  induction fs with
  | nil => simp [readAll]
  | cons f fs ih =>
    cases hc : f.content with
    | none => simp [readAll, hc]
    | some d =>
      simp only [readAll, hc, List.mem_cons]
      constructor
      · rintro ⟨ds, hds⟩
        cases hr : readAll fs with
        | error e => rw [hr] at hds; exact absurd hds (by simp [Except.map])
        | ok ds' =>
          intro g hg
          rcases hg with hg | hg
          · simp [hg, hc]
          · exact (ih.mp ⟨ds', hr⟩) g hg
      · intro h
        rcases ih.mpr (fun g hg => h g (Or.inr hg)) with ⟨ds', hds'⟩
        exact ⟨d :: ds', by simp [hds', Except.map]⟩

/-- When every read succeeds the loop returns the files' parses in order. -/
theorem readAll_ok (fs : List FileEntry)
    (h : ∀ f ∈ fs, f.content.isSome) :
    readAll fs = .ok (fs.filterMap (fun f => f.content)) := by
  induction fs with
  | nil => simp [readAll]
  | cons f fs ih =>
    rcases hc : f.content with _ | d
    · exact absurd (h f (by simp)) (by simp [hc])
    · simp [readAll, hc, ih (fun g hg => h g (List.mem_cons_of_mem _ hg)),
        Except.map]

/-- C2: the loader returns a table exactly when the data folder exists,
holds at least one `.csv` file, and every such file reads cleanly; in
every other case it halts with an error and produces no table. -/
theorem load_data_ok_iff (d : DataDir) :
    (∃ T, load_data d = .ok T) ↔
    (∃ es, d = some es ∧ csvFilesOf es ≠ [] ∧
      ∀ f ∈ csvFilesOf es, f.content.isSome) := by
  cases d with
  | none => simp [load_data]
  | some es =>
    simp only [load_data, Option.some.injEq]
    by_cases he : (csvFilesOf es).isEmpty
    · rw [if_pos he]
      constructor
      · rintro ⟨T, hT⟩
        exact absurd hT (by simp)
      · rintro ⟨es', hes', hne, -⟩
        obtain rfl : es = es' := hes'
        exact absurd (List.isEmpty_iff.mp he) hne
    · rw [if_neg he]
      constructor
      · rintro ⟨T, hT⟩
        refine ⟨es, rfl, fun hnil => he (by simp [hnil]), ?_⟩
        refine (readAll_ok_iff _).mp ?_
        cases hr : readAll (csvFilesOf es) with
        | error e => rw [hr] at hT; exact absurd hT (by simp [Except.map])
        | ok ds => exact ⟨ds, rfl⟩
      · rintro ⟨es', hes', -, hall⟩
        obtain rfl : es = es' := hes'
        exact ⟨concatCsv ((csvFilesOf es).filterMap (fun f => f.content)),
          by simp [readAll_ok _ hall, Except.map]⟩

/-- C3: on a folder of readable CSV files the loader returns a table whose
rows are the files' rows concatenated in enumeration order (keeping each
file's own order), whose row count is the sum of the files' row counts,
and whose column set is the union of the files' column sets. -/
theorem load_data_concat_spec (es : List FileEntry)
    (h₁ : csvFilesOf es ≠ [])
    (h₂ : ∀ f ∈ csvFilesOf es, f.content.isSome) :
    ∃ T, load_data (some es) = .ok T ∧
      T.rows = (((csvFilesOf es).filterMap (fun f => f.content)).map
        (fun d => d.rows)).flatten ∧
      T.rows.length = (((csvFilesOf es).filterMap (fun f => f.content)).map
        (fun d => d.rows.length)).sum ∧
      (∀ c, c ∈ T.cols ↔
        ∃ d ∈ (csvFilesOf es).filterMap (fun f => f.content),
          c ∈ d.cols) := by
  use concatCsv ((csvFilesOf es).filterMap (fun f => f.content))
  refine ⟨?_, rfl, ?_, fun c => ?_⟩
  · rw [load_data]
    rw [if_neg (by simpa using h₁), readAll_ok _ h₂]
    rfl
  · simp [concatCsv, List.length_flatten, List.map_map, Function.comp_def]
  · simp only [concatCsv, mem_firstDedup, List.mem_flatten, List.mem_map]
    constructor
    · rintro ⟨l, ⟨d, hd, rfl⟩, hc⟩
      exact ⟨d, hd, hc⟩
    · rintro ⟨d, hd, hc⟩
      exact ⟨d.cols, ⟨d, hd, rfl⟩, hc⟩

/-- Witness instantiating `load_data_concat_spec` on `egDir`. -/
theorem load_data_concat_spec_witness :
    (csvFilesOf egDir ≠ [] ∧ ∀ f ∈ csvFilesOf egDir, f.content.isSome) ∧
    (∃ T, load_data (some egDir) = .ok T ∧
      T.rows = (((csvFilesOf egDir).filterMap (fun f => f.content)).map
        (fun d => d.rows)).flatten ∧
      T.rows.length = (((csvFilesOf egDir).filterMap (fun f => f.content)).map
        (fun d => d.rows.length)).sum ∧
      (∀ c, c ∈ T.cols ↔
        ∃ d ∈ (csvFilesOf egDir).filterMap (fun f => f.content),
          c ∈ d.cols)) :=
  ⟨⟨by decide, by decide⟩,
    load_data_concat_spec egDir (by decide) (by decide)⟩

/-- C4 counterexample: with the dairy-only selection on `egRows`, the
Total Orders metric the script shows (2) is not the order count of the
filtered row-set (1): the Key Metrics block runs before the filters. -/
theorem runScript_totalOrders_not_filtered :
    (runScript egRows egSel).totalOrders ≠
      nunique (runScript egRows egSel).filteredRows "order_id" := by
  decide

/-- C4 (amended): the orders-per-user metric is computed from the filtered
row-set, but the four Key Metrics (total orders, total users, unique
products, average products per order) are computed from the loaded,
unfiltered table. -/
theorem runScript_metric_sources (t : List Row) (s : Selections) :
    (runScript t s).totalOrders = nunique t "order_id" ∧
    (runScript t s).totalUsers = nunique t "user_id" ∧
    (runScript t s).uniqueProducts = nunique t "product_name" ∧
    (runScript t s).avgPerOrder = avgProductsPerOrder t ∧
    (runScript t s).filteredRows = dfAfterProduct t s ∧
    (runScript t s).ordersPerUser =
      avg_order_per_customer (dfAfterProduct t s) :=
  ⟨rfl, rfl, rfl, rfl, rfl, rfl⟩

/-- C6: when the table has at least one unique user, orders-per-user is
exactly the unique-order count divided by the unique-user count. -/
theorem avg_order_per_customer_exact (t : List Row)
    (h : 0 < nunique t "user_id") :
    avg_order_per_customer t =
      some ((nunique t "order_id" : ℚ) / (nunique t "user_id" : ℚ)) := by
  rw [avg_order_per_customer, if_neg (Nat.pos_iff_ne_zero.mp h)]

/-- Witness instantiating `avg_order_per_customer_exact` on `egRows`. -/
theorem avg_order_per_customer_exact_witness :
    0 < nunique egRows "user_id" ∧
    avg_order_per_customer egRows =
      some ((nunique egRows "order_id" : ℚ) / (nunique egRows "user_id" : ℚ)) :=
  ⟨by decide, avg_order_per_customer_exact egRows (by decide)⟩

/-- Every entry of `value_counts` carries its value's true frequency. -/
theorem value_counts_count (t : List Row) (c : String) :
    ∀ p ∈ value_counts t c, p.2 = (colVals t c).count p.1 := by
  intro p hp
  rcases List.mem_map.mp hp with ⟨e, he, rfl⟩
  rcases List.mem_map.mp ((List.mem_insertionSort vcRel).mp he) with
    ⟨v, _, rfl⟩
  rfl

/-- Each tagged entry records its value's frequency and the position of
its first occurrence in the column values. -/
theorem vcEntries_mem (t : List Row) (c : String) :
    ∀ e ∈ vcEntries t c,
      e.2.1 = (colVals t c).count e.1 ∧
      e.2.2 = (colVals t c).indexOf e.1 := by
  intro e he
  rcases List.mem_map.mp he with ⟨v, _, rfl⟩
  exact ⟨rfl, rfl⟩

/-- C7: a top-K frequency query with K at least the number of distinct
values returns the whole frequency table: all distinct values of the
column, counts in descending order, with tied counts listed in order of
the values' first occurrence in the input column. -/
theorem topFreq_all_of_big_k (t : List Row) (c : String) (k : Nat)
    (h : (distinctVals t c).length ≤ k) :
    topFreq t c k = value_counts t c ∧
    ((topFreq t c k).map Prod.fst).Perm (distinctVals t c) ∧
    (topFreq t c k).Pairwise (fun a b => b.2 ≤ a.2) ∧
    (topFreq t c k).Pairwise (fun a b => a.2 = b.2 →
      (colVals t c).indexOf a.1 ≤ (colVals t c).indexOf b.1) := by
  have hlen : (value_counts t c).length = (distinctVals t c).length := by
    simp [value_counts, List.length_insertionSort, vcEntries]
  have htake : topFreq t c k = value_counts t c :=
    List.take_of_length_le (hlen ▸ h)
  have hperm : (List.insertionSort vcRel (vcEntries t c)).Perm
      (vcEntries t c) := List.perm_insertionSort vcRel _
  have hsorted : (List.insertionSort vcRel (vcEntries t c)).Pairwise vcRel :=
    List.sorted_insertionSort vcRel _
  refine ⟨htake, ?_, ?_, ?_⟩
  · rw [htake]
    have hmap : (value_counts t c).map Prod.fst =
        (List.insertionSort vcRel (vcEntries t c)).map (fun e => e.1) := by
      simp [value_counts, List.map_map, Function.comp_def]
    rw [hmap]
    have : ((vcEntries t c).map (fun e => e.1)) = distinctVals t c := by
      simp [vcEntries, List.map_map, Function.comp_def]
    exact this ▸ hperm.map (fun e => e.1)
  · rw [htake]
    unfold value_counts
    rw [List.pairwise_map]
    refine hsorted.imp (fun hab => ?_)
    rcases hab with hlt | ⟨he, -⟩
    · exact Nat.le_of_lt hlt
    · exact le_of_eq he.symm
  · rw [htake]
    unfold value_counts
    rw [List.pairwise_map]
    refine List.Pairwise.imp_of_mem ?_ hsorted
    intro a b ha hb hab heq
    have ha' := vcEntries_mem t c a ((List.mem_insertionSort vcRel).mp ha)
    have hb' := vcEntries_mem t c b ((List.mem_insertionSort vcRel).mp hb)
    rcases hab with hlt | ⟨-, hi⟩
    · exact absurd heq (Nat.ne_of_gt hlt)
    · rw [← ha'.2, ← hb'.2]
      exact hi

/-- Witness instantiating `topFreq_all_of_big_k` at K = 10 over a column
with two distinct values tied at count two; the concrete table evaluates
with Milk before Bread, the first-occurrence order (last-occurrence order
would list Bread first). -/
theorem topFreq_all_of_big_k_witness :
    (distinctVals egFreqRows "product_name").length ≤ 10 ∧
    (topFreq egFreqRows "product_name" 10 =
      value_counts egFreqRows "product_name" ∧
    ((topFreq egFreqRows "product_name" 10).map Prod.fst).Perm
      (distinctVals egFreqRows "product_name") ∧
    (topFreq egFreqRows "product_name" 10).Pairwise
      (fun a b => b.2 ≤ a.2) ∧
    (topFreq egFreqRows "product_name" 10).Pairwise (fun a b => a.2 = b.2 →
      (colVals egFreqRows "product_name").indexOf a.1 ≤
        (colVals egFreqRows "product_name").indexOf b.1)) ∧
    value_counts egFreqRows "product_name" = [("Milk", 2), ("Bread", 2)] :=
  ⟨by decide, topFreq_all_of_big_k egFreqRows "product_name" 10 (by decide),
    by decide⟩

/-- C8 counterexample: on a two-CSV folder, a session of two interactions
reads the files twice — not once as the cached-loader claim requires. -/
theorem sessionReads_not_once :
    sessionReads (some egDir) 2 ≠ loadReads (some egDir) := by
  decide

/-- C8 (amended): the loader's result is never cached — every interaction
re-runs `load_data`, so a session of n interactions repeats the same file
reads n times. -/
theorem sessionReads_rereads (d : DataDir) (n : Nat) :
    sessionReads d n = (List.replicate n (loadReads d)).flatten ∧
    (sessionReads d n).length = n * (loadReads d).length := by
  induction n with
  | zero => simp [sessionReads]
  | succ n ih =>
    constructor
    · rw [sessionReads, ih.1, List.replicate_succ']
      simp
    · rw [sessionReads]
      simp [ih.2, Nat.succ_mul]

/-- C10: on a table lacking the Day and hour columns the orders-table
projection fails with a KeyError while both charts skip silently. -/
theorem tableData_unguarded (T : CsvData)
    (hDay : "Day" ∉ T.cols) (hHour : "order_hour_of_day" ∉ T.cols) :
    (∃ e, tableData T = .error e) ∧
    dayChart T = none ∧ hourChart T = none := by
  refine ⟨⟨"KeyError", ?_⟩, ?_, ?_⟩
  · rw [tableData, selectCols, if_neg]
    intro hall
    exact hDay
      (by simpa using List.all_eq_true.mp hall "Day" (by simp [table_cols]))
  · rw [dayChart, if_neg]
    intro hc
    exact hDay (by simpa using hc)
  · rw [hourChart, if_neg]
    intro hc
    exact hHour (by simpa using hc)

/-- Witness instantiating `tableData_unguarded` on `egNoDayTable`. -/
theorem tableData_unguarded_witness :
    ("Day" ∉ egNoDayTable.cols ∧ "order_hour_of_day" ∉ egNoDayTable.cols) ∧
    ((∃ e, tableData egNoDayTable = .error e) ∧
      dayChart egNoDayTable = none ∧ hourChart egNoDayTable = none) :=
  ⟨⟨by decide, by decide⟩,
    tableData_unguarded egNoDayTable (by decide) (by decide)⟩
